import Mathlib

/-!
Verification of the nofx trading orchestrator (Python sources under src/py/)
against its natural-language specification.

The embedding models, in Lean over exact rational arithmetic:
* the decision data model and the validator of `decision/engine.py`;
* the response-parsing control flow of `DecisionEngine._parse_full_decision_response`;
* the decision ordering and per-decision execution loop of `trader/auto_trader.py`;
* the Sharpe-ratio computation of `logger/decision_logger.py`;
* the liquidity filter of `DecisionEngine._fetch_market_data_for_context`;
* the configuration-loading path of `manager/trader_manager.py`;
* the leverage-setting logic of `trader/binance_futures.py`.

Python floats are modelled as rationals; every concrete input used below is far
from any binary-rounding boundary, so the branch taken by the rational model
coincides with the branch taken by the float code.
-/

namespace Nofx

/-! ### Data model (src/py/decision/engine.py, dataclasses) -/

/-- One element of the engine's decision list (engine.py `Decision` dataclass). -/
structure Decision where
  symbol : String
  action : String
  leverage : Int := 0
  position_size_usd : ℚ := 0
  stop_loss : ℚ := 0
  take_profit : ℚ := 0
  confidence : Int := 0
  risk_usd : ℚ := 0
  reasoning : String := ""
deriving DecidableEq

/-- Engine output (engine.py `FullDecision` dataclass); the timestamp is not modelled. -/
structure FullDecision where
  user_prompt : String
  cot_trace : String
  decisions : List Decision
deriving DecidableEq

/-! ### Decision validation (engine.py `_validate_decision`, lines 645-738) -/

/-- Which check of `_validate_decision` raised; each constructor corresponds to one
`raise ValueError` site, in source order. -/
inductive ValidationError where
  | invalidAction
  | leverageOutOfRange
  | positionSizeNotPositive
  | positionValueExceedsCap
  | stopOrTakeProfitNotPositive
  | longStopNotBelowTakeProfit
  | shortStopNotAboveTakeProfit
  | riskRewardTooLow
deriving DecidableEq

/-- The `valid_actions` set of `_validate_decision`. -/
def validActions : List String :=
  ["open_long", "open_short", "close_long", "close_short", "hold", "wait"]

/-- `d.symbol in ["BTCUSDT", "ETHUSDT"]`. -/
def isBtcEth (symbol : String) : Bool :=
  symbol == "BTCUSDT" || symbol == "ETHUSDT"

/-- `max_leverage` as computed in `_validate_decision` (engine.py:669-672). -/
def maxLeverageFor (symbol : String) (btcEthLeverage altcoinLeverage : Int) : Int :=
  if isBtcEth symbol then btcEthLeverage else altcoinLeverage

/-- `max_position_value` as computed in `_validate_decision` (engine.py:670-673):
10x equity for BTC/ETH, 1.5x equity otherwise. -/
def maxPositionValueFor (symbol : String) (accountEquity : ℚ) : ℚ :=
  if isBtcEth symbol then accountEquity * 10 else accountEquity * (3 / 2)

/-- The nominal entry price of the risk-reward check (engine.py:709-715):
`stop_loss + 0.2*(take_profit - stop_loss)` for a long,
`stop_loss - 0.2*(stop_loss - take_profit)` for a short. -/
def nominalEntryPrice (d : Decision) : ℚ :=
  if d.action == "open_long" then
    d.stop_loss + (d.take_profit - d.stop_loss) * (1 / 5)
  else
    d.stop_loss - (d.stop_loss - d.take_profit) * (1 / 5)

/-- `risk_percent` of the risk-reward check (engine.py:721-727). -/
def riskPercentOf (d : Decision) : ℚ :=
  if d.action == "open_long" then
    (nominalEntryPrice d - d.stop_loss) / nominalEntryPrice d * 100
  else
    (d.stop_loss - nominalEntryPrice d) / nominalEntryPrice d * 100

/-- `reward_percent` of the risk-reward check (engine.py:721-728). -/
def rewardPercentOf (d : Decision) : ℚ :=
  if d.action == "open_long" then
    (d.take_profit - nominalEntryPrice d) / nominalEntryPrice d * 100
  else
    (nominalEntryPrice d - d.take_profit) / nominalEntryPrice d * 100

/-- `risk_reward_ratio` (engine.py:719-730); stays 0.0 unless `risk_percent > 0`. -/
def riskRewardOf (d : Decision) : ℚ :=
  if 0 < riskPercentOf d then rewardPercentOf d / riskPercentOf d else 0

/-- `DecisionEngine._validate_decision` (engine.py:645-738), one check per line of the
source, in source order; `Except.error e` is the first `raise ValueError`. -/
def validateDecision (d : Decision) (accountEquity : ℚ)
    (btcEthLeverage altcoinLeverage : Int) : Except ValidationError Unit :=
  if d.action ∈ validActions then
    if d.action == "open_long" || d.action == "open_short" then
      let maxLev := maxLeverageFor d.symbol btcEthLeverage altcoinLeverage
      let maxVal := maxPositionValueFor d.symbol accountEquity
      if d.leverage ≤ 0 ∨ maxLev < d.leverage then
        .error .leverageOutOfRange
      else if d.position_size_usd ≤ 0 then
        .error .positionSizeNotPositive
      else if maxVal + maxVal * (1 / 100) < d.position_size_usd then
        .error .positionValueExceedsCap
      else if d.stop_loss ≤ 0 ∨ d.take_profit ≤ 0 then
        .error .stopOrTakeProfitNotPositive
      else if d.action == "open_long" then
        if d.take_profit ≤ d.stop_loss then
          .error .longStopNotBelowTakeProfit
        else if riskRewardOf d < 3 then .error .riskRewardTooLow
        else .ok ()
      else
        if d.stop_loss ≤ d.take_profit then
          .error .shortStopNotAboveTakeProfit
        else if riskRewardOf d < 3 then .error .riskRewardTooLow
        else .ok ()
    else .ok ()
  else .error .invalidAction

/-- `DecisionEngine._validate_decisions` (engine.py:629-643): raises at the first
failing decision, reporting its 1-based index. -/
def validateDecisionsFrom (i : Nat) (ds : List Decision) (accountEquity : ℚ)
    (btcEthLeverage altcoinLeverage : Int) : Option (Nat × ValidationError) :=
  match ds with
  | [] => none
  | d :: rest =>
      match validateDecision d accountEquity btcEthLeverage altcoinLeverage with
      | .error e => some (i, e)
      | .ok _ => validateDecisionsFrom (i + 1) rest accountEquity btcEthLeverage altcoinLeverage

/-- Entry point of `_validate_decisions`: indices start at 1. -/
def validateDecisions (ds : List Decision) (accountEquity : ℚ)
    (btcEthLeverage altcoinLeverage : Int) : Option (Nat × ValidationError) :=
  validateDecisionsFrom 1 ds accountEquity btcEthLeverage altcoinLeverage

/-- `DecisionEngine._parse_full_decision_response` (engine.py:524-550).  The JSON
extraction of `_extract_decisions` is abstracted as the `extracted` argument
(`Except.error` when no balanced array is found or the JSON does not decode).
Key control flow of the source: on extraction failure the decision list is empty;
otherwise `_validate_decisions` is run inside a `try` whose `except` only logs
(engine.py:543-548), and the extracted list is returned unchanged in both cases. -/
def parseFullDecisionResponse (cotTrace : String)
    (extracted : Except String (List Decision)) (accountEquity : ℚ)
    (btcEthLeverage altcoinLeverage : Int) : FullDecision :=
  match extracted with
  | .error _ => { user_prompt := "", cot_trace := cotTrace, decisions := [] }
  | .ok ds =>
      let _validationOutcome :=
        validateDecisions ds accountEquity btcEthLeverage altcoinLeverage
      { user_prompt := "", cot_trace := cotTrace, decisions := ds }

/-! ### Venue state and decision execution (src/py/trader/auto_trader.py) -/

/-- A position dict as returned by `BinanceFuturesTrader.get_positions`
(binance_futures.py:94-103); only fields read by the AutoTrader are modelled. -/
structure VenuePosition where
  symbol : String
  side : String
  positionAmt : ℚ
  entryPrice : ℚ
  markPrice : ℚ
  leverage : Int
deriving DecidableEq

/-- A call issued to the Venue by the per-decision executors. -/
inductive VenueCall where
  | openLong (symbol : String) (quantity : ℚ) (leverage : Int)
  | openShort (symbol : String) (quantity : ℚ) (leverage : Int)
  | closeLong (symbol : String) (quantity : ℚ)
  | closeShort (symbol : String) (quantity : ℚ)
  | setStopLossTakeProfit (symbol side : String) (stopLoss takeProfit : ℚ)
deriving DecidableEq

/-- Cause of a `raise` inside a per-decision executor of auto_trader.py. -/
inductive ExecError where
  | sameSideConflict (symbol side : String)
  | marketDataUnavailable (symbol : String)
  | noPositionToClose (symbol side : String)
  | unknownAction (action : String)
deriving DecidableEq

/-- The per-action record assembled by `run_cycle` (auto_trader.py:367-391):
initialised with quantity 0, price 0, success false; mutated by the executor. -/
structure ActionRecord where
  action : String
  symbol : String
  quantity : ℚ
  leverage : Int
  price : ℚ
  success : Bool
  error : Option ExecError
deriving DecidableEq

/-- The record as initialised at auto_trader.py:367-376, before execution. -/
def initialRecord (d : Decision) : ActionRecord :=
  { action := d.action, symbol := d.symbol, quantity := 0,
    leverage := d.leverage, price := 0, success := false, error := none }

/-- `AutoTrader._execute_open_long` / `_execute_open_short` (auto_trader.py:553-641),
parametrised by the side.  The same-side check runs first and raises before any
venue call; then the MarketDataFetcher price is read (`none` models a fetch
failure raising); quantity is `position_size_usd / current_price`; the open order
is issued and, when both stops are positive, the SL/TP order follows. -/
def executeOpenSide (side : String) (prices : String → Option ℚ)
    (positions : List VenuePosition) (d : Decision) : ActionRecord × List VenueCall :=
  if positions.any (fun p => p.symbol == d.symbol && p.side == side) then
    ({ initialRecord d with error := some (.sameSideConflict d.symbol side) }, [])
  else
    match prices d.symbol with
    | none => ({ initialRecord d with error := some (.marketDataUnavailable d.symbol) }, [])
    | some price =>
        let quantity := d.position_size_usd / price
        let openCall :=
          if side == "long" then VenueCall.openLong d.symbol quantity d.leverage
          else VenueCall.openShort d.symbol quantity d.leverage
        let slTpCalls :=
          if 0 < d.stop_loss ∧ 0 < d.take_profit then
            [VenueCall.setStopLossTakeProfit d.symbol side d.stop_loss d.take_profit]
          else []
        ({ initialRecord d with quantity := quantity, price := price, success := true },
         openCall :: slTpCalls)

/-- `AutoTrader._execute_close_long` / `_execute_close_short` (auto_trader.py:643-693):
the first same-symbol same-side position provides quantity and price; with no such
position the executor raises and no venue call is issued. -/
def executeCloseSide (side : String) (positions : List VenuePosition)
    (d : Decision) : ActionRecord × List VenueCall :=
  match positions.find? (fun p => p.symbol == d.symbol && p.side == side) with
  | none => ({ initialRecord d with error := some (.noPositionToClose d.symbol side) }, [])
  | some p =>
      let q := |p.positionAmt|
      if q = 0 then
        ({ initialRecord d with quantity := q, price := p.markPrice, error := some (.noPositionToClose d.symbol side) }, [])
      else
        let closeCall :=
          if side == "long" then VenueCall.closeLong d.symbol q
          else VenueCall.closeShort d.symbol q
        ({ initialRecord d with quantity := q, price := p.markPrice, success := true }, [closeCall])

/-- `AutoTrader._execute_decision_with_record` (auto_trader.py:535-551) combined with
the surrounding try/except of `run_cycle` (auto_trader.py:378-391): a raise is
captured into the record's error field with success false; on success the record is
marked successful.  The positions snapshot is the venue's cached position list
(15 s TTL, binance_futures.py:73-80), constant across one cycle. -/
def executeDecision (prices : String → Option ℚ) (positions : List VenuePosition)
    (d : Decision) : ActionRecord × List VenueCall :=
  if d.action == "open_long" then executeOpenSide "long" prices positions d
  else if d.action == "open_short" then executeOpenSide "short" prices positions d
  else if d.action == "close_long" then executeCloseSide "long" positions d
  else if d.action == "close_short" then executeCloseSide "short" positions d
  else if d.action == "hold" || d.action == "wait" then
    ({ initialRecord d with success := true }, [])
  else ({ initialRecord d with error := some (.unknownAction d.action) }, [])

/-- The execution loop of `run_cycle` (auto_trader.py:366-391): every decision yields
exactly one record, appended in order; a failure does not stop the loop. -/
def executeDecisionList (prices : String → Option ℚ) (positions : List VenuePosition) :
    List Decision → List ActionRecord × List VenueCall
  | [] => ([], [])
  | d :: rest =>
      let step := executeDecision prices positions d
      let tail := executeDecisionList prices positions rest
      (step.1 :: tail.1, step.2 ++ tail.2)

/-- `d.action in ["close_long", "close_short"]` (auto_trader.py:697-699). -/
def isCloseAction (d : Decision) : Bool :=
  d.action == "close_long" || d.action == "close_short"

/-- `d.action in ["open_long", "open_short"]` (auto_trader.py:700-702). -/
def isOpenAction (d : Decision) : Bool :=
  d.action == "open_long" || d.action == "open_short"

/-- `d.action not in [closes, opens]` (auto_trader.py:703-707). -/
def isOtherAction (d : Decision) : Bool :=
  !(isCloseAction d) && !(isOpenAction d)

/-- `AutoTrader._sort_decisions_by_priority` (auto_trader.py:695-709): three list
comprehensions concatenated as closes ++ opens ++ others. -/
def sortDecisionsByPriority (ds : List Decision) : List Decision :=
  ds.filter isCloseAction ++ ds.filter isOpenAction ++ ds.filter isOtherAction

/-- Steps 7-8 of `run_cycle` (auto_trader.py:358-391): sort, then execute in order. -/
def runCycleExecution (prices : String → Option ℚ) (positions : List VenuePosition)
    (ds : List Decision) : List ActionRecord × List VenueCall :=
  executeDecisionList prices positions (sortDecisionsByPriority ds)

/-! ### Sharpe ratio (src/py/logger/decision_logger.py `_calculate_sharpe_ratio`, 393-449) -/

/-- A decision-log record as read by `_calculate_sharpe_ratio`: only
`record["account_state"]["total_balance"]` is consulted (a missing field reads
as 0.0 and is then filtered out by the positivity test). -/
structure CycleRecord where
  account_total_balance : ℚ
deriving DecidableEq

/-- Lines 407-413 of decision_logger.py: collect the equities that are > 0. -/
def extractEquities (records : List CycleRecord) : List ℚ :=
  (records.map (fun r => r.account_total_balance)).filter (fun e => 0 < e)

/-- Lines 419-423: periodic returns over consecutive equities, guarded by the
positivity of the earlier equity exactly as in the source loop. -/
def periodicReturns : List ℚ → List ℚ
  | [] => []
  | [_] => []
  | a :: b :: rest =>
      (if 0 < a then [(b - a) / a] else []) ++ periodicReturns (b :: rest)

/-- `mean_return` (decision_logger.py:429). -/
def meanOf (l : List ℚ) : ℚ := l.sum / l.length

/-- `variance` (decision_logger.py:435-436), the population variance. -/
def populationVariance (l : List ℚ) : ℚ :=
  (l.map (fun r => (r - meanOf l) ^ 2)).sum / l.length

/-- `DecisionLogger._calculate_sharpe_ratio` (decision_logger.py:393-449).  The
source branches on `std_dev == 0` with `std_dev = variance ** 0.5`; since the
population variance is nonnegative, that test is equivalent to `variance = 0`
(lemma `sqrt_variance_eq_zero_iff` below), which keeps the branch decidable. -/
noncomputable def calculateSharpeRatio (records : List CycleRecord) : ℝ :=
  if records.length < 2 then 0
  else
    let equities := extractEquities records
    if equities.length < 2 then 0
    else
      let returns := periodicReturns equities
      if returns.length = 0 then 0
      else
        let meanReturn := meanOf returns
        if returns.length = 1 then 0
        else
          let variance := populationVariance returns
          if variance = 0 then
            if 0 < meanReturn then 999
            else if meanReturn < 0 then -999
            else 0
          else (meanReturn : ℝ) / Real.sqrt (variance : ℝ)

/-- The tail of `_calculate_sharpe_ratio` as a function of the returns list alone;
used to express permutation invariance. -/
noncomputable def sharpeOfReturns (returns : List ℚ) : ℝ :=
  if returns.length = 0 then 0
  else if returns.length = 1 then 0
  else if populationVariance returns = 0 then
    if 0 < meanOf returns then 999
    else if meanOf returns < 0 then -999
    else 0
  else (meanOf returns : ℝ) / Real.sqrt ((populationVariance returns : ℚ) : ℝ)

/-! ### Liquidity filter (src/py/decision/engine.py `_fetch_market_data_for_context`) -/

/-- `OIData` (market/data.py:15-19). -/
structure OIData where
  latest : ℚ
  average : ℚ
deriving DecidableEq

/-- The slice of `MarketData` (market/data.py:45-55) read by the liquidity filter;
`open_interest` is Optional in the source. -/
structure MarketData where
  current_price : ℚ
  open_interest : Option OIData
deriving DecidableEq

/-- The drop condition of engine.py:192-209: a fetched symbol is dropped iff it is
not an existing position, its open-interest data is present, its price is
positive, and `latest * price / 1_000_000 < 15`. -/
def droppedByLiquidityFilter (positionSymbols : List String) (symbol : String)
    (data : MarketData) : Bool :=
  match data.open_interest with
  | none => false
  | some oi =>
      !(positionSymbols.contains symbol) && decide (0 < data.current_price)
        && decide (oi.latest * data.current_price / 1000000 < 15)

/-- The market-data loop of `_fetch_market_data_for_context` (engine.py:188-216):
each symbol of the fetch set maps to its fetch outcome (`none` models the
per-symbol exception caught at engine.py:213-216); surviving snapshots populate
`ctx.market_data_map`. -/
def fetchMarketDataMap (positionSymbols : List String) :
    List (String × Option MarketData) → List (String × MarketData)
  | [] => []
  | (_, none) :: rest => fetchMarketDataMap positionSymbols rest
  | (s, some data) :: rest =>
      if droppedByLiquidityFilter positionSymbols s data then
        fetchMarketDataMap positionSymbols rest
      else (s, data) :: fetchMarketDataMap positionSymbols rest

/-! ### Performance feedback wiring (auto_trader.py:505-531, engine.py:486-495) -/

/-- The slice of the `analyze_performance` result dict consulted by the prompt
builder (engine.py:492). -/
structure PerformanceAnalysis where
  sharpe_ratio : ℚ
  total_trades : Nat
deriving DecidableEq

/-- The method names defined on `DecisionLogger`
(decision_logger.py: log_decision 78, get_latest_records 104, analyze_performance
133, get_statistics 451, clean_old_records 507, get_record_by_date 547). -/
def decisionLoggerMethods : List String :=
  ["log_decision", "get_latest_records", "analyze_performance",
   "get_statistics", "clean_old_records", "get_record_by_date"]

/-- The attribute name requested by `build_trading_context` (auto_trader.py:507). -/
def performanceMethodRequested : String := "get_performance_analysis"

/-- Python attribute lookup on the logger: `none` is an AttributeError. -/
def lookupLoggerMethod (name : String) : Option String :=
  if decisionLoggerMethods.contains name then some name else none

/-- Step 5 of `build_trading_context` (auto_trader.py:505-510): the performance
call sits in a `try` whose `except` sets performance to None; an AttributeError
from a missing method is caught there.  `analysis` is the value
`analyze_performance` would have produced from the log. -/
def buildContextPerformance (analysis : PerformanceAnalysis) : Option PerformanceAnalysis :=
  match lookupLoggerMethod performanceMethodRequested with
  | none => none
  | some _ => some analysis

/-- The Sharpe block of `_build_user_prompt` (engine.py:486-495): emitted only when
`ctx.performance` is truthy (the analysis dict is non-empty whenever present, so
truthiness is presence); the emitted line carries `perf["sharpe_ratio"]`. -/
def userPromptSharpeLine (performance : Option PerformanceAnalysis) : Option ℚ :=
  match performance with
  | none => none
  | some p => some p.sharpe_ratio

/-! ### Supervisor configuration loading (src/py/manager/trader_manager.py) -/

/-- Field names of the `AutoTraderConfig` dataclass (auto_trader.py:34-96), in
declaration order. -/
def autoTraderConfigFields : List String :=
  ["id", "name", "ai_model", "exchange", "testnet",
   "binance_api_key", "binance_secret_key",
   "hyperliquid_private_key", "hyperliquid_wallet_address",
   "aster_private_key", "aster_wallet_address",
   "okx_api_key", "okx_api_secret", "okx_passphrase",
   "deepseek_key", "qwen_key",
   "custom_api_url", "custom_api_key", "custom_model_name",
   "use_default_coins", "coin_pool_api_url", "oi_top_api_url",
   "scan_interval_minutes", "initial_balance",
   "btc_eth_leverage", "altcoin_leverage",
   "max_daily_loss", "max_drawdown", "stop_trading_hours",
   "is_cross_margin"]

/-- Keyword arguments of the `AutoTraderConfig(...)` call in
`TraderManager._add_trader_from_db` (trader_manager.py:311-333), in call order. -/
def addTraderConfigKwargs : List String :=
  ["id", "name", "ai_model", "exchange", "scan_interval_minutes",
   "initial_balance", "btc_eth_leverage", "altcoin_leverage",
   "max_daily_loss", "max_drawdown", "stop_trading_hours",
   "is_cross_margin", "use_default_coins", "coin_pool_api_url",
   "oi_top_api_url", "default_coins", "trading_coins",
   "system_prompt_template", "custom_prompt", "override_base_prompt"]

/-- The keyword arguments a dataclass `__init__` rejects with TypeError: those not
among the declared fields. -/
def unexpectedKwargs (kwargs fields : List String) : List String :=
  kwargs.filter (fun k => !(fields.contains k))

/-- Constructing `AutoTraderConfig` with the given keyword names: `Except.error k`
models `TypeError: __init__() got an unexpected keyword argument k`. -/
def constructAutoTraderConfig (kwargs : List String) : Except String Unit :=
  match unexpectedKwargs kwargs autoTraderConfigFields with
  | [] => .ok ()
  | k :: _ => .error k

/-- A trader row as read from the configuration database (trader_manager.py). -/
structure TraderRow where
  id : String
  name : String
  enabled : Bool
  ai_model_id : String
  exchange_id : String
deriving DecidableEq

/-- An LLM-model or venue-credentials row; only id and the enabled flag matter to
the loading path. -/
structure ConfigRow where
  id : String
  enabled : Bool
deriving DecidableEq

/-- `TraderManager._add_trader_from_db` (trader_manager.py:257-387) restricted to
its registration effect on the trader map (a list of registered trader ids):
an already-registered id is skipped (lines 276-279); otherwise the
`AutoTraderConfig(...)` call at lines 311-333 runs with the keyword names
`addTraderConfigKwargs` and its TypeError propagates to the caller. -/
def addTraderFromDb (registered : List String) (row : TraderRow) :
    Except String (List String) :=
  if registered.contains row.id then .ok registered
  else
    match constructAutoTraderConfig addTraderConfigKwargs with
    | .error e => .error e
    | .ok _ => .ok (registered ++ [row.id])

/-- One iteration of the `load_user_traders` row loop (trader_manager.py:194-255):
skip when already registered, disabled, or the referenced model/exchange row is
missing or disabled; otherwise call `_add_trader_from_db`, whose exception is
caught and logged (lines 253-255), leaving the map unchanged. -/
def loadTraderRow (models exchanges : List ConfigRow) (registered : List String)
    (row : TraderRow) : List String :=
  if registered.contains row.id then registered
  else if !row.enabled then registered
  else
    match models.find? (fun m => m.id == row.ai_model_id) with
    | none => registered
    | some m =>
        if !m.enabled then registered
        else
          match exchanges.find? (fun e => e.id == row.exchange_id) with
          | none => registered
          | some e =>
              if !e.enabled then registered
              else
                match addTraderFromDb registered row with
                | .error _ => registered
                | .ok registeredAfter => registeredAfter

/-- `TraderManager.load_user_traders` (trader_manager.py:142-255): fold the row
loop over the user's trader rows. -/
def loadUserTraders (models exchanges : List ConfigRow) (registered : List String)
    (rows : List TraderRow) : List String :=
  rows.foldl (loadTraderRow models exchanges) registered

/-! ### Leverage setting (src/py/trader/binance_futures.py `set_leverage`, 146-177) -/

/-- Lines 149-155: the current leverage for a symbol is read off the first matching
position of the snapshot, defaulting to 0 when the symbol has no open position. -/
def currentLeverage (positions : List VenuePosition) (symbol : String) : Int :=
  match positions.find? (fun p => p.symbol == symbol) with
  | some p => p.leverage
  | none => 0

/-- Lines 157-168: `futures_change_leverage` is issued unless the current leverage
already equals the target and is positive. -/
def setLeverageIssuesChange (positions : List VenuePosition) (symbol : String)
    (leverage : Int) : Bool :=
  !(currentLeverage positions symbol == leverage && 0 < currentLeverage positions symbol)

/-- Whether the second of two consecutive `set_leverage(symbol, n)` calls issues
`futures_change_leverage`.  `get_positions` serves a ≤15 s cached list
(binance_futures.py:22, 76-80) and `set_leverage` sleeps only 5 s after a change
(line 173), so the second call reads the same pre-change snapshot as the first
and evaluates the same test on it. -/
def secondCallIssuesChange (positions : List VenuePosition) (symbol : String)
    (leverage : Int) : Bool :=
  setLeverageIssuesChange positions symbol leverage

/-! ### Concrete inputs used by witnesses and counterexamples -/

/-- The §8 scenario-2 decision: open long, stop 100, take-profit 115, equity 1000. -/
def rrExample115 : Decision :=
  { symbol := "BTCUSDT", action := "open_long", leverage := 5,
    position_size_usd := 5000, stop_loss := 100, take_profit := 115,
    confidence := 80, risk_usd := 150, reasoning := "scenario 2" }

/-- Scenario 2 with take-profit moved to 110. -/
def rrExample110 : Decision := { rrExample115 with take_profit := 110 }

/-- Scenario-3 decision parametrised by the position size. -/
def sizeCapExample (size : ℚ) : Decision := { rrExample115 with position_size_usd := size }

/-- A grossly oversized open (fails the §4.F size cap at equity 1000). -/
def oversizedOpen : Decision := sizeCapExample 100000

/-- A price table for the execution examples: BTCUSDT trades at 50000. -/
def demoPrices : String → Option ℚ :=
  fun s => if s == "BTCUSDT" then some 50000 else if s == "ETHUSDT" then some 2500 else none

/-- An existing long position on ETHUSDT (scenario 4). -/
def ethLongPosition : VenuePosition :=
  { symbol := "ETHUSDT", side := "long", positionAmt := 2, entryPrice := 2400,
    markPrice := 2500, leverage := 5 }

/-- An `open_long ETHUSDT` decision issued while `ethLongPosition` is held. -/
def ethOpenLongDecision : Decision :=
  { symbol := "ETHUSDT", action := "open_long", leverage := 5,
    position_size_usd := 1000, stop_loss := 2300, take_profit := 3500,
    confidence := 80, risk_usd := 100, reasoning := "scenario 4" }

/-- A `close_long ETHUSDT` decision (scenario 4 sibling). -/
def ethCloseLongDecision : Decision :=
  { symbol := "ETHUSDT", action := "close_long", leverage := 0,
    position_size_usd := 0, stop_loss := 0, take_profit := 0,
    confidence := 0, risk_usd := 0, reasoning := "scenario 4" }

/-- A `hold` decision on BTCUSDT. -/
def btcHoldDecision : Decision :=
  { symbol := "BTCUSDT", action := "hold", leverage := 0,
    position_size_usd := 0, stop_loss := 0, take_profit := 0,
    confidence := 0, risk_usd := 0, reasoning := "hold" }

/-- Scenario-1 market data: open interest 5000 at price 2000, an OI value of
10,000,000 USD, below the 15M liquidity threshold. -/
def lowOIData : MarketData :=
  { current_price := 2000, open_interest := some { latest := 5000, average := 5000 } }

/-! ## Theorems -/

/-- For an open-long decision with positive stop below take-profit, the nominal
entry sits one fifth of the way up, so risk is one fifth and reward four fifths
of the band: the computed ratio is exactly 4. -/
theorem riskReward_open_long_eq_four (d : Decision) (h : d.action = "open_long")
    (hsl : 0 < d.stop_loss) (hlt : d.stop_loss < d.take_profit) :
    riskRewardOf d = 4 := by
  have hb : (d.action == "open_long") = true := by simp [h]
  have hentry : nominalEntryPrice d = d.stop_loss + (d.take_profit - d.stop_loss) * (1 / 5) := by
    simp [nominalEntryPrice, hb]
  have hpos : 0 < nominalEntryPrice d := by
    rw [hentry]; nlinarith
  have hrisk : riskPercentOf d = (d.take_profit - d.stop_loss) * (1 / 5) / nominalEntryPrice d * 100 := by
    simp only [riskPercentOf, hb, if_pos, hentry]; ring
  have hriskpos : 0 < riskPercentOf d := by
    rw [hrisk]
    have h1 : 0 < (d.take_profit - d.stop_loss) * (1 / 5) := by nlinarith
    positivity
  have hreward : rewardPercentOf d = (d.take_profit - d.stop_loss) * (4 / 5) / nominalEntryPrice d * 100 := by
    simp only [rewardPercentOf, hb, if_pos, hentry]; ring
  have hne : nominalEntryPrice d ≠ 0 := ne_of_gt hpos
  have hband : d.take_profit - d.stop_loss ≠ 0 := by linarith [hlt]
  rw [riskRewardOf, if_pos hriskpos, hreward, hrisk]
  field_simp
  ring

/-- Symmetric computation for an open-short decision: the ratio is again exactly 4. -/
theorem riskReward_open_short_eq_four (d : Decision) (h : d.action = "open_short")
    (htp : 0 < d.take_profit) (hlt : d.take_profit < d.stop_loss) :
    riskRewardOf d = 4 := by
  have hb : (d.action == "open_long") = false := by simp [h]
  have hentry : nominalEntryPrice d = d.stop_loss - (d.stop_loss - d.take_profit) * (1 / 5) := by
    simp [nominalEntryPrice, hb]
  have hpos : 0 < nominalEntryPrice d := by
    rw [hentry]; nlinarith
  have hrisk : riskPercentOf d = (d.stop_loss - d.take_profit) * (1 / 5) / nominalEntryPrice d * 100 := by
    simp only [riskPercentOf, hb, if_neg, Bool.false_eq_true, if_false, hentry]; ring
  have hriskpos : 0 < riskPercentOf d := by
    rw [hrisk]
    have h1 : 0 < (d.stop_loss - d.take_profit) * (1 / 5) := by nlinarith
    positivity
  have hreward : rewardPercentOf d = (d.stop_loss - d.take_profit) * (4 / 5) / nominalEntryPrice d * 100 := by
    simp only [rewardPercentOf, hb, Bool.false_eq_true, if_false, hentry]; ring
  have hne : nominalEntryPrice d ≠ 0 := ne_of_gt hpos
  have hband : d.stop_loss - d.take_profit ≠ 0 := by linarith [hlt]
  rw [riskRewardOf, if_pos hriskpos, hreward, hrisk]
  field_simp
  ring

/-- Characterisation of the validator on an open-long decision with a well-ordered
stop/take-profit pair: since the risk-reward ratio is forced to 4, acceptance is
exactly the leverage band and the size cap. -/
theorem validate_open_long_iff (d : Decision) (equity : ℚ) (bel al : Int)
    (h : d.action = "open_long") (hsl : 0 < d.stop_loss) (hlt : d.stop_loss < d.take_profit) :
    validateDecision d equity bel al = .ok () ↔
      (1 ≤ d.leverage ∧ d.leverage ≤ maxLeverageFor d.symbol bel al ∧
       0 < d.position_size_usd ∧
       d.position_size_usd ≤ maxPositionValueFor d.symbol equity +
         maxPositionValueFor d.symbol equity * (1 / 100)) := by
  have hrr := riskReward_open_long_eq_four d h hsl hlt
  have htp : 0 < d.take_profit := lt_trans hsl hlt
  have hmem : d.action ∈ validActions := by rw [h]; decide
  have hopen : (d.action == "open_long" || d.action == "open_short") = true := by
    rw [h]; decide
  have hlong : (d.action == "open_long") = true := by rw [h]; decide
  have hnotsl : ¬ (d.stop_loss ≤ 0 ∨ d.take_profit ≤ 0) := by
    push_neg; exact ⟨hsl, htp⟩
  have hnotord : ¬ (d.take_profit ≤ d.stop_loss) := not_le.mpr hlt
  have hnotrr : ¬ (riskRewardOf d < 3) := by rw [hrr]; norm_num
  unfold validateDecision
  rw [if_pos hmem, if_pos hopen, if_pos hlong]
  by_cases h1 : d.leverage ≤ 0 ∨ maxLeverageFor d.symbol bel al < d.leverage
  · rw [if_pos h1]
    exact iff_of_false (by simp) (by rintro ⟨c1, c2, _, _⟩; omega)
  · rw [if_neg h1]
    by_cases h2 : d.position_size_usd ≤ 0
    · rw [if_pos h2]
      exact iff_of_false (by simp) (by rintro ⟨_, _, c3, _⟩; linarith)
    · rw [if_neg h2]
      by_cases h3 : maxPositionValueFor d.symbol equity +
          maxPositionValueFor d.symbol equity * (1 / 100) < d.position_size_usd
      · rw [if_pos h3]
        exact iff_of_false (by simp) (by rintro ⟨_, _, _, c4⟩; linarith)
      · rw [if_neg h3, if_neg hnotsl, if_neg hnotord, if_neg hnotrr]
        exact iff_of_true rfl ⟨by omega, by omega, by linarith, by linarith⟩

/-- Characterisation of the validator on an open-short decision with a well-ordered
stop/take-profit pair: acceptance is exactly the leverage band and the size cap. -/
theorem validate_open_short_iff (d : Decision) (equity : ℚ) (bel al : Int)
    (h : d.action = "open_short") (htp : 0 < d.take_profit) (hlt : d.take_profit < d.stop_loss) :
    validateDecision d equity bel al = .ok () ↔
      (1 ≤ d.leverage ∧ d.leverage ≤ maxLeverageFor d.symbol bel al ∧
       0 < d.position_size_usd ∧
       d.position_size_usd ≤ maxPositionValueFor d.symbol equity +
         maxPositionValueFor d.symbol equity * (1 / 100)) := by
  have hrr := riskReward_open_short_eq_four d h htp hlt
  have hsl : 0 < d.stop_loss := lt_trans htp hlt
  have hmem : d.action ∈ validActions := by rw [h]; decide
  have hopen : (d.action == "open_long" || d.action == "open_short") = true := by
    rw [h]; decide
  have hlong : ¬ ((d.action == "open_long") = true) := by rw [h]; decide
  have hnotsl : ¬ (d.stop_loss ≤ 0 ∨ d.take_profit ≤ 0) := by
    push_neg; exact ⟨hsl, htp⟩
  have hnotord : ¬ (d.stop_loss ≤ d.take_profit) := not_le.mpr hlt
  have hnotrr : ¬ (riskRewardOf d < 3) := by rw [hrr]; norm_num
  unfold validateDecision
  rw [if_pos hmem, if_pos hopen, if_neg hlong]
  by_cases h1 : d.leverage ≤ 0 ∨ maxLeverageFor d.symbol bel al < d.leverage
  · rw [if_pos h1]
    exact iff_of_false (by simp) (by rintro ⟨c1, c2, _, _⟩; omega)
  · rw [if_neg h1]
    by_cases h2 : d.position_size_usd ≤ 0
    · rw [if_pos h2]
      exact iff_of_false (by simp) (by rintro ⟨_, _, c3, _⟩; linarith)
    · rw [if_neg h2]
      by_cases h3 : maxPositionValueFor d.symbol equity +
          maxPositionValueFor d.symbol equity * (1 / 100) < d.position_size_usd
      · rw [if_pos h3]
        exact iff_of_false (by simp) (by rintro ⟨_, _, _, c4⟩; linarith)
      · rw [if_neg h3, if_neg hnotsl, if_neg hnotord, if_neg hnotrr]
        exact iff_of_true rfl ⟨by omega, by omega, by linarith, by linarith⟩

/-- An action passing the open-action test is one of the two open literals. -/
theorem open_action_cases (d : Decision)
    (hopen : (d.action == "open_long" || d.action == "open_short") = true) :
    d.action = "open_long" ∨ d.action = "open_short" := by
  rw [Bool.or_eq_true] at hopen
  rcases hopen with hx | hx
  · exact Or.inl (by simpa using hx)
  · exact Or.inr (by simpa using hx)

/-- Acceptance of an open decision forces the leverage band and the size cap. -/
theorem validate_open_ok_implies_bounds (d : Decision) (equity : ℚ) (bel al : Int)
    (hopen : (d.action == "open_long" || d.action == "open_short") = true)
    (hok : validateDecision d equity bel al = .ok ()) :
    1 ≤ d.leverage ∧ d.leverage ≤ maxLeverageFor d.symbol bel al ∧
    0 < d.position_size_usd ∧
    d.position_size_usd ≤ maxPositionValueFor d.symbol equity +
      maxPositionValueFor d.symbol equity * (1 / 100) := by
  have hmem : d.action ∈ validActions := by
    rcases open_action_cases d hopen with hx | hx <;> rw [hx] <;> decide
  unfold validateDecision at hok
  rw [if_pos hmem, if_pos hopen] at hok
  by_cases h1 : d.leverage ≤ 0 ∨ maxLeverageFor d.symbol bel al < d.leverage
  · rw [if_pos h1] at hok; exact absurd hok (by simp)
  · rw [if_neg h1] at hok
    by_cases h2 : d.position_size_usd ≤ 0
    · rw [if_pos h2] at hok; exact absurd hok (by simp)
    · rw [if_neg h2] at hok
      by_cases h3 : maxPositionValueFor d.symbol equity +
          maxPositionValueFor d.symbol equity * (1 / 100) < d.position_size_usd
      · rw [if_pos h3] at hok; exact absurd hok (by simp)
      · exact ⟨by omega, by omega, by linarith, by linarith⟩

/-- C5 (corrected): with the nominal entry `stop_loss + 0.2*(take_profit - stop_loss)`,
the claimed rejection of `{open_long, stop_loss: 100, take_profit: 110}` does not
happen: the entry is recomputed from the new take-profit (102, not 103), the
computed ratio is exactly 4, and the validator accepts the decision. -/
theorem C5_counterexample :
    riskRewardOf rrExample110 = 4 ∧
    ¬ ((4 : ℚ) < 3) ∧
    validateDecision rrExample110 1000 5 5 = .ok () := by
  refine ⟨?_, by norm_num, ?_⟩ <;>
    norm_num [validateDecision, validActions, rrExample110, rrExample115, maxLeverageFor,
      maxPositionValueFor, isBtcEth, riskRewardOf, riskPercentOf, rewardPercentOf,
      nominalEntryPrice]

/-- C5 (amended): the nominal-entry construction makes `reward%/risk%` identically 4
(for both open directions with well-ordered stops), so the `>= 3.0` risk-reward
requirement never rejects; acceptance reduces to the leverage band and size cap,
and both the take-profit-115 and the take-profit-110 example decisions pass. -/
theorem C5_risk_reward_check (d : Decision) (equity : ℚ) (bel al : Int) :
    (d.action = "open_long" → 0 < d.stop_loss → d.stop_loss < d.take_profit →
      riskRewardOf d = 4 ∧
      (validateDecision d equity bel al = .ok () ↔
        (1 ≤ d.leverage ∧ d.leverage ≤ maxLeverageFor d.symbol bel al ∧
         0 < d.position_size_usd ∧
         d.position_size_usd ≤ maxPositionValueFor d.symbol equity +
           maxPositionValueFor d.symbol equity * (1 / 100)))) ∧
    (d.action = "open_short" → 0 < d.take_profit → d.take_profit < d.stop_loss →
      riskRewardOf d = 4 ∧
      (validateDecision d equity bel al = .ok () ↔
        (1 ≤ d.leverage ∧ d.leverage ≤ maxLeverageFor d.symbol bel al ∧
         0 < d.position_size_usd ∧
         d.position_size_usd ≤ maxPositionValueFor d.symbol equity +
           maxPositionValueFor d.symbol equity * (1 / 100)))) ∧
    validateDecision rrExample115 1000 5 5 = .ok () ∧
    validateDecision rrExample110 1000 5 5 = .ok () := by
  refine ⟨?_, ?_, ?_, ?_⟩
  · intro h hsl hlt
    exact ⟨riskReward_open_long_eq_four d h hsl hlt,
      validate_open_long_iff d equity bel al h hsl hlt⟩
  · intro h htp hlt
    exact ⟨riskReward_open_short_eq_four d h htp hlt,
      validate_open_short_iff d equity bel al h htp hlt⟩
  · norm_num [validateDecision, validActions, rrExample115, maxLeverageFor,
      maxPositionValueFor, isBtcEth, riskRewardOf, riskPercentOf, rewardPercentOf,
      nominalEntryPrice]
  · norm_num [validateDecision, validActions, rrExample110, rrExample115, maxLeverageFor,
      maxPositionValueFor, isBtcEth, riskRewardOf, riskPercentOf, rewardPercentOf,
      nominalEntryPrice]

/-- Witness for C5: the amended theorem applied to the take-profit-115 example. -/
theorem C5_witness :
    riskRewardOf rrExample115 = 4 ∧ validateDecision rrExample115 1000 5 5 = .ok () := by
  have h := (C5_risk_reward_check rrExample115 1000 5 5).1 rfl
    (by norm_num [rrExample115]) (by norm_num [rrExample115])
  refine ⟨h.1, h.2.mpr ?_⟩
  norm_num [rrExample115, maxLeverageFor, maxPositionValueFor, isBtcEth]

/-- C6 (confirmed): the validator's leverage band and size cap.  BTCUSDT/ETHUSDT use
the btc-eth cap and 10x equity, other symbols the altcoin cap and 1.5x equity;
acceptance of an open decision requires `1 <= leverage <= max_leverage` and
`0 < position_size_usd <= max_position_value * 1.01`; exceeding either band
rejects; at equity 1000 with cap 5 a BTCUSDT size of 10100 passes and 10110 is
rejected. -/
theorem C6_leverage_and_size_caps (d : Decision) (equity : ℚ) (bel al : Int)
    (hopen : d.action = "open_long" ∨ d.action = "open_short") :
    ((d.symbol = "BTCUSDT" ∨ d.symbol = "ETHUSDT") →
        maxLeverageFor d.symbol bel al = bel ∧
        maxPositionValueFor d.symbol equity = 10 * equity) ∧
    (¬ (d.symbol = "BTCUSDT" ∨ d.symbol = "ETHUSDT") →
        maxLeverageFor d.symbol bel al = al ∧
        maxPositionValueFor d.symbol equity = (3 / 2) * equity) ∧
    (validateDecision d equity bel al = .ok () →
        1 ≤ d.leverage ∧ d.leverage ≤ maxLeverageFor d.symbol bel al ∧
        0 < d.position_size_usd ∧
        d.position_size_usd ≤ maxPositionValueFor d.symbol equity * (101 / 100)) ∧
    ((d.leverage < 1 ∨ maxLeverageFor d.symbol bel al < d.leverage ∨
      d.position_size_usd ≤ 0 ∨
      maxPositionValueFor d.symbol equity * (101 / 100) < d.position_size_usd) →
        validateDecision d equity bel al ≠ .ok ()) ∧
    validateDecision (sizeCapExample 10100) 1000 5 5 = .ok () ∧
    validateDecision (sizeCapExample 10110) 1000 5 5 = .error .positionValueExceedsCap := by
  have hbool : (d.action == "open_long" || d.action == "open_short") = true := by
    rcases hopen with hx | hx <;> rw [hx] <;> decide
  have hcap : maxPositionValueFor d.symbol equity +
      maxPositionValueFor d.symbol equity * (1 / 100) =
      maxPositionValueFor d.symbol equity * (101 / 100) := by ring
  refine ⟨?_, ?_, ?_, ?_, ?_, ?_⟩
  case refine_5 =>
    norm_num [validateDecision, validActions, sizeCapExample, rrExample115, maxLeverageFor,
      maxPositionValueFor, isBtcEth, riskRewardOf, riskPercentOf, rewardPercentOf,
      nominalEntryPrice]
  case refine_6 =>
    norm_num [validateDecision, validActions, sizeCapExample, rrExample115, maxLeverageFor,
      maxPositionValueFor, isBtcEth, riskRewardOf, riskPercentOf, rewardPercentOf,
      nominalEntryPrice]
  · rintro (hs | hs) <;> rw [hs] <;>
      simp [maxLeverageFor, maxPositionValueFor, isBtcEth] <;> ring
  · intro hs
    have hb : isBtcEth d.symbol = false := by
      simp only [isBtcEth, Bool.or_eq_false_iff, beq_eq_false_iff_ne]
      push_neg at hs
      exact ⟨hs.1, hs.2⟩
    simp [maxLeverageFor, maxPositionValueFor, hb]; ring
  · intro hok
    have h := validate_open_ok_implies_bounds d equity bel al hbool hok
    rw [hcap] at h
    exact h
  · intro hbad hok
    have h := validate_open_ok_implies_bounds d equity bel al hbool hok
    rw [hcap] at h
    rcases hbad with hb | hb | hb | hb
    · omega
    · omega
    · linarith [h.2.2.1]
    · linarith [h.2.2.2]

/-- Witness for C6: the oversized BTCUSDT open is rejected at equity 1000. -/
theorem C6_witness : validateDecision oversizedOpen 1000 5 5 ≠ .ok () := by
  exact (C6_leverage_and_size_caps oversizedOpen 1000 5 5 (Or.inl rfl)).2.2.2.1
    (by right; right; right
        norm_num [oversizedOpen, sizeCapExample, rrExample115, maxPositionValueFor, isBtcEth])

/-- The three action classes of `_sort_decisions_by_priority` are mutually exclusive. -/
theorem action_classes_exclusive (d : Decision) :
    (isCloseAction d = true → isOpenAction d = false) ∧
    (isCloseAction d = true → isOtherAction d = false) ∧
    (isOpenAction d = true → isOtherAction d = false) := by
  refine ⟨?_, ?_, ?_⟩ <;> intro h
  · have hx : d.action = "close_long" ∨ d.action = "close_short" := by
      simpa [isCloseAction] using h
    rcases hx with hx | hx <;> simp [isOpenAction, hx]
  · simp [isOtherAction, h]
  · simp [isOtherAction, h]

/-- Position i of the sorted list lies in the closes, opens or others segment
according to the segment lengths. -/
theorem sortDecisions_segment (ds : List Decision) (i : Nat)
    (hi : i < (sortDecisionsByPriority ds).length) :
    (i < (ds.filter isCloseAction).length →
        isCloseAction ((sortDecisionsByPriority ds)[i]) = true) ∧
    ((ds.filter isCloseAction).length ≤ i →
        i < (ds.filter isCloseAction).length + (ds.filter isOpenAction).length →
        isOpenAction ((sortDecisionsByPriority ds)[i]) = true) ∧
    ((ds.filter isCloseAction).length + (ds.filter isOpenAction).length ≤ i →
        isOtherAction ((sortDecisionsByPriority ds)[i]) = true) := by
  have hlen : (sortDecisionsByPriority ds).length =
      (ds.filter isCloseAction).length + ((ds.filter isOpenAction).length +
        (ds.filter isOtherAction).length) := by
    simp [sortDecisionsByPriority]
  refine ⟨?_, ?_, ?_⟩
  · intro hcl
    have hcl2 : i < (ds.filter isCloseAction ++ ds.filter isOpenAction).length := by
      rw [List.length_append]; omega
    have he : (sortDecisionsByPriority ds)[i] = (ds.filter isCloseAction)[i] := by
      unfold sortDecisionsByPriority
      exact (List.getElem_append_left hcl2).trans (List.getElem_append_left hcl)
    rw [he]
    exact (List.mem_filter.mp (List.getElem_mem hcl)).2
  · intro hge hlt
    have hlt1 : i < (ds.filter isCloseAction ++ ds.filter isOpenAction).length := by
      rw [List.length_append]; omega
    have hlt2 : i - (ds.filter isCloseAction).length < (ds.filter isOpenAction).length := by
      omega
    have he : (sortDecisionsByPriority ds)[i] =
        (ds.filter isOpenAction)[i - (ds.filter isCloseAction).length] := by
      unfold sortDecisionsByPriority
      exact (List.getElem_append_left hlt1).trans (List.getElem_append_right hge)
    rw [he]
    exact (List.mem_filter.mp (List.getElem_mem hlt2)).2
  · intro hge
    have hge1 : (ds.filter isCloseAction ++ ds.filter isOpenAction).length ≤ i := by
      rw [List.length_append]; omega
    have hlt3 : i - (ds.filter isCloseAction ++ ds.filter isOpenAction).length <
        (ds.filter isOtherAction).length := by
      rw [List.length_append]; omega
    have he : (sortDecisionsByPriority ds)[i] =
        (ds.filter isOtherAction)[i - (ds.filter isCloseAction ++ ds.filter isOpenAction).length] := by
      unfold sortDecisionsByPriority
      exact List.getElem_append_right hge1
    rw [he]
    exact (List.mem_filter.mp (List.getElem_mem hlt3)).2

/-- The loop of `run_cycle` produces exactly one record per decision, in list order. -/
theorem executeDecisionList_records (prices : String → Option ℚ)
    (positions : List VenuePosition) (ds : List Decision) :
    (executeDecisionList prices positions ds).1 =
      ds.map (fun d => (executeDecision prices positions d).1) := by
  induction ds with
  | nil => rfl
  | cons d rest ih => simp [executeDecisionList, ih]

/-- A Boolean predicate that is false on every member filters to the empty list. -/
theorem filter_eq_nil_of_forall_false {α : Type} (p : α → Bool) (l : List α)
    (h : ∀ a ∈ l, p a = false) : l.filter p = [] := by
  simp only [List.filter_eq_nil_iff]
  intro a ha
  simpa using h a ha

/-- C4 (confirmed): `_sort_decisions_by_priority` is a stable partition into
closes, opens, others: the output is a permutation of the input; each class keeps
the engine's original order (its filtered subsequence is unchanged); every close
sits before every open, every open before every hold/wait; and the execution loop
processes exactly the sorted list in order. -/
theorem C4_sort_stable_partition (ds : List Decision) :
    List.Perm (sortDecisionsByPriority ds) ds ∧
    (sortDecisionsByPriority ds).filter isCloseAction = ds.filter isCloseAction ∧
    (sortDecisionsByPriority ds).filter isOpenAction = ds.filter isOpenAction ∧
    (sortDecisionsByPriority ds).filter isOtherAction = ds.filter isOtherAction ∧
    (∀ i j, ∀ hi : i < (sortDecisionsByPriority ds).length,
        ∀ hj : j < (sortDecisionsByPriority ds).length,
        isCloseAction ((sortDecisionsByPriority ds)[i]) = true →
        isOpenAction ((sortDecisionsByPriority ds)[j]) = true → i < j) ∧
    (∀ i j, ∀ hi : i < (sortDecisionsByPriority ds).length,
        ∀ hj : j < (sortDecisionsByPriority ds).length,
        isCloseAction ((sortDecisionsByPriority ds)[i]) = true →
        isOtherAction ((sortDecisionsByPriority ds)[j]) = true → i < j) ∧
    (∀ i j, ∀ hi : i < (sortDecisionsByPriority ds).length,
        ∀ hj : j < (sortDecisionsByPriority ds).length,
        isOpenAction ((sortDecisionsByPriority ds)[i]) = true →
        isOtherAction ((sortDecisionsByPriority ds)[j]) = true → i < j) ∧
    (∀ prices positions, (runCycleExecution prices positions ds).1 =
        (sortDecisionsByPriority ds).map (fun d => (executeDecision prices positions d).1)) := by
  have hexcl := action_classes_exclusive
  have hClosePos : ∀ i, ∀ hi : i < (sortDecisionsByPriority ds).length,
      isCloseAction ((sortDecisionsByPriority ds)[i]) = true →
      i < (ds.filter isCloseAction).length := by
    intro i hi hc
    by_contra hnot
    push_neg at hnot
    by_cases hmid : i < (ds.filter isCloseAction).length + (ds.filter isOpenAction).length
    · have ho := (sortDecisions_segment ds i hi).2.1 hnot hmid
      have := (hexcl _).1 hc
      rw [this] at ho
      exact Bool.false_ne_true ho
    · push_neg at hmid
      have ho := (sortDecisions_segment ds i hi).2.2 hmid
      have := (hexcl _).2.1 hc
      rw [this] at ho
      exact Bool.false_ne_true ho
  have hOpenLow : ∀ j, ∀ hj : j < (sortDecisionsByPriority ds).length,
      isOpenAction ((sortDecisionsByPriority ds)[j]) = true →
      (ds.filter isCloseAction).length ≤ j := by
    intro j hj ho
    by_contra hnot
    push_neg at hnot
    have hc := (sortDecisions_segment ds j hj).1 hnot
    have := (hexcl _).1 hc
    rw [this] at ho
    exact Bool.false_ne_true ho
  have hOpenHigh : ∀ i, ∀ hi : i < (sortDecisionsByPriority ds).length,
      isOpenAction ((sortDecisionsByPriority ds)[i]) = true →
      i < (ds.filter isCloseAction).length + (ds.filter isOpenAction).length := by
    intro i hi ho
    by_contra hnot
    push_neg at hnot
    have hoth := (sortDecisions_segment ds i hi).2.2 hnot
    have := (hexcl _).2.2 ho
    rw [this] at hoth
    exact Bool.false_ne_true hoth
  have hOtherLow : ∀ j, ∀ hj : j < (sortDecisionsByPriority ds).length,
      isOtherAction ((sortDecisionsByPriority ds)[j]) = true →
      (ds.filter isCloseAction).length + (ds.filter isOpenAction).length ≤ j := by
    intro j hj hoth
    by_contra hnot
    push_neg at hnot
    by_cases hlo : j < (ds.filter isCloseAction).length
    · have hc := (sortDecisions_segment ds j hj).1 hlo
      have := (hexcl _).2.1 hc
      rw [this] at hoth
      exact Bool.false_ne_true hoth
    · push_neg at hlo
      have ho := (sortDecisions_segment ds j hj).2.1 hlo hnot
      have := (hexcl _).2.2 ho
      rw [this] at hoth
      exact Bool.false_ne_true hoth
  have hopen_sub : ∀ a ∈ ds.filter (fun d => !isCloseAction d),
      isOpenAction a = (isOpenAction a && !isCloseAction a) := by
    intro a ha
    have hnc := (List.mem_filter.mp ha).2
    simp only [Bool.not_eq_true'] at hnc
    rw [hnc]
    simp
  have hother_sub : ∀ a ∈ ds.filter (fun d => !isCloseAction d),
      (!isOpenAction a) = isOtherAction a := by
    intro a ha
    have hnc := (List.mem_filter.mp ha).2
    simp only [Bool.not_eq_true'] at hnc
    simp [isOtherAction, hnc]
  have hperm : List.Perm (sortDecisionsByPriority ds) ds := by
    unfold sortDecisionsByPriority
    rw [List.append_assoc]
    have base := List.filter_append_perm isCloseAction ds
    refine List.Perm.trans ?_ base
    refine List.Perm.append_left (ds.filter isCloseAction) ?_
    have inner := List.filter_append_perm isOpenAction (ds.filter (fun d => !isCloseAction d))
    have hB : (ds.filter (fun d => !isCloseAction d)).filter isOpenAction =
        ds.filter isOpenAction := by
      rw [List.filter_filter]
      refine List.filter_congr ?_
      intro a ha
      by_cases hc : isCloseAction a = true
      · have hfo := (hexcl a).1 hc
        rw [hfo, hc]
        simp
      · simp only [Bool.not_eq_true] at hc
        rw [hc]
        simp
    have hC : (ds.filter (fun d => !isCloseAction d)).filter (fun d => !isOpenAction d) =
        ds.filter isOtherAction := by
      rw [List.filter_filter]
      refine List.filter_congr ?_
      intro a ha
      simp only [isOtherAction]
      by_cases hc : isCloseAction a = true
      · have hfo := (hexcl a).1 hc
        rw [hfo, hc]
        simp
      · simp only [Bool.not_eq_true] at hc
        rw [hc]
        simp [Bool.and_comm]
    rw [hB, hC] at inner
    exact inner
  have hcloseFalse_of_open : ∀ a, isOpenAction a = true → isCloseAction a = false := by
    intro a ho
    by_cases hc : isCloseAction a = true
    · have := (hexcl a).1 hc
      rw [this] at ho
      exact absurd ho Bool.false_ne_true
    · simpa using hc
  have hcloseFalse_of_other : ∀ a, isOtherAction a = true → isCloseAction a = false := by
    intro a hoth
    by_cases hc : isCloseAction a = true
    · have := (hexcl a).2.1 hc
      rw [this] at hoth
      exact absurd hoth Bool.false_ne_true
    · simpa using hc
  have hopenFalse_of_other : ∀ a, isOtherAction a = true → isOpenAction a = false := by
    intro a hoth
    by_cases ho : isOpenAction a = true
    · have := (hexcl a).2.2 ho
      rw [this] at hoth
      exact absurd hoth Bool.false_ne_true
    · simpa using ho
  refine ⟨hperm, ?_, ?_, ?_, ?_, ?_, ?_, ?_⟩
  · unfold sortDecisionsByPriority
    rw [List.filter_append, List.filter_append]
    rw [List.filter_eq_self.mpr (fun a ha => (List.mem_filter.mp ha).2)]
    rw [filter_eq_nil_of_forall_false isCloseAction (ds.filter isOpenAction)
      (fun a ha => hcloseFalse_of_open a ((List.mem_filter.mp ha).2))]
    rw [filter_eq_nil_of_forall_false isCloseAction (ds.filter isOtherAction)
      (fun a ha => hcloseFalse_of_other a ((List.mem_filter.mp ha).2))]
    simp
  · unfold sortDecisionsByPriority
    rw [List.filter_append, List.filter_append]
    rw [List.filter_eq_self.mpr (fun a ha => (List.mem_filter.mp ha).2)]
    rw [filter_eq_nil_of_forall_false isOpenAction (ds.filter isCloseAction)
      (fun a ha => (hexcl a).1 ((List.mem_filter.mp ha).2))]
    rw [filter_eq_nil_of_forall_false isOpenAction (ds.filter isOtherAction)
      (fun a ha => hopenFalse_of_other a ((List.mem_filter.mp ha).2))]
    simp
  · unfold sortDecisionsByPriority
    rw [List.filter_append, List.filter_append]
    rw [List.filter_eq_self.mpr (fun a ha => (List.mem_filter.mp ha).2)]
    rw [filter_eq_nil_of_forall_false isOtherAction (ds.filter isCloseAction)
      (fun a ha => (hexcl a).2.1 ((List.mem_filter.mp ha).2))]
    rw [filter_eq_nil_of_forall_false isOtherAction (ds.filter isOpenAction)
      (fun a ha => (hexcl a).2.2 ((List.mem_filter.mp ha).2))]
    simp
  · intro i j hi hj hc ho
    exact lt_of_lt_of_le (hClosePos i hi hc) (hOpenLow j hj ho)
  · intro i j hi hj hc hoth
    have h1 := hClosePos i hi hc
    have h2 := hOtherLow j hj hoth
    omega
  · intro i j hi hj ho hoth
    have h1 := hOpenHigh i hi ho
    have h2 := hOtherLow j hj hoth
    omega
  · intro prices positions
    exact executeDecisionList_records prices positions (sortDecisionsByPriority ds)

/-- Every decision of a cycle yields exactly one per-action record. -/
theorem executeDecisionList_length (prices : String → Option ℚ)
    (positions : List VenuePosition) (ds : List Decision) :
    (executeDecisionList prices positions ds).1.length = ds.length := by
  rw [executeDecisionList_records]
  exact List.length_map ds _

/-- C8 (confirmed): an open decision executed while the venue snapshot already holds
a same-symbol same-side position produces a failed record carrying the same-side
conflict error, with no venue call issued (the check raises before the open
order); and the loop still yields one record per sibling decision. -/
theorem C8_same_side_open_refused (prices : String → Option ℚ)
    (positions : List VenuePosition) (d : Decision) :
    (d.action = "open_long" →
      (∃ p ∈ positions, p.symbol = d.symbol ∧ p.side = "long") →
      executeDecision prices positions d =
        ({ initialRecord d with error := some (.sameSideConflict d.symbol "long") }, [])) ∧
    (d.action = "open_short" →
      (∃ p ∈ positions, p.symbol = d.symbol ∧ p.side = "short") →
      executeDecision prices positions d =
        ({ initialRecord d with error := some (.sameSideConflict d.symbol "short") }, [])) ∧
    (∀ ds, (executeDecisionList prices positions ds).1.length = ds.length) := by
  refine ⟨?_, ?_, fun ds => executeDecisionList_length prices positions ds⟩
  · intro h hex
    have hany : positions.any (fun p => p.symbol == d.symbol && p.side == "long") = true := by
      rw [List.any_eq_true]
      obtain ⟨p, hp, hsym, hside⟩ := hex
      exact ⟨p, hp, by rw [hsym, hside]; simp⟩
    have hb : (d.action == "open_long") = true := by rw [h]; rfl
    unfold executeDecision
    rw [if_pos hb]
    unfold executeOpenSide
    rw [if_pos hany]
  · intro h hex
    have hany : positions.any (fun p => p.symbol == d.symbol && p.side == "short") = true := by
      rw [List.any_eq_true]
      obtain ⟨p, hp, hsym, hside⟩ := hex
      exact ⟨p, hp, by rw [hsym, hside]; simp⟩
    have hb : ¬ ((d.action == "open_long") = true) := by rw [h]; simp
    have hb2 : (d.action == "open_short") = true := by rw [h]; rfl
    unfold executeDecision
    rw [if_neg hb, if_pos hb2]
    unfold executeOpenSide
    rw [if_pos hany]

/-- Witness for C8: scenario 4, an `open_long ETHUSDT` against an existing ETHUSDT
long fails with the conflict error while the sibling close still yields a record. -/
theorem C8_witness :
    executeDecision demoPrices [ethLongPosition] ethOpenLongDecision =
      ({ initialRecord ethOpenLongDecision with
          error := some (.sameSideConflict ethOpenLongDecision.symbol "long") }, []) ∧
    (executeDecisionList demoPrices [ethLongPosition]
      [ethCloseLongDecision, ethOpenLongDecision]).1.length = 2 := by
  have h := C8_same_side_open_refused demoPrices [ethLongPosition] ethOpenLongDecision
  exact ⟨h.1 rfl ⟨ethLongPosition, by simp, rfl, rfl⟩,
    h.2.2 [ethCloseLongDecision, ethOpenLongDecision]⟩

/-- C1 (code bug): `_parse_full_decision_response` only logs the validation failure
and returns the decision list unchanged (engine.py:543-550), so a decision failing
the §4.F size cap stays in the FullDecision and `run_cycle` dispatches its open
order to the Venue. -/
theorem C1_invalid_open_reaches_venue :
    validateDecisions [oversizedOpen] 1000 5 5 = some (1, .positionValueExceedsCap) ∧
    (parseFullDecisionResponse "analysis" (.ok [oversizedOpen]) 1000 5 5).decisions =
      [oversizedOpen] ∧
    VenueCall.openLong "BTCUSDT" 2 5 ∈ (runCycleExecution demoPrices [] [oversizedOpen]).2 := by
  have hval : validateDecision oversizedOpen 1000 5 5 = .error .positionValueExceedsCap := by
    norm_num [validateDecision, validActions, oversizedOpen, sizeCapExample, rrExample115,
      maxLeverageFor, maxPositionValueFor, isBtcEth]
  refine ⟨?_, rfl, ?_⟩
  · unfold validateDecisions validateDecisionsFrom
    rw [hval]
  · have hq : oversizedOpen.position_size_usd / 50000 = 2 := by
      norm_num [oversizedOpen, sizeCapExample, rrExample115]
    have hsort : sortDecisionsByPriority [oversizedOpen] = [oversizedOpen] := by rfl
    unfold runCycleExecution
    rw [hsort]
    unfold executeDecisionList executeDecisionList
    unfold executeDecision
    norm_num [executeOpenSide, demoPrices, oversizedOpen, sizeCapExample, rrExample115, hq]

/-- `_add_trader_from_db` can never build the config: the `AutoTraderConfig(...)`
call uses keyword arguments the dataclass does not declare. -/
theorem loadTraderRow_registers_nothing (models exchanges : List ConfigRow)
    (registered : List String) (row : TraderRow) :
    loadTraderRow models exchanges registered row = registered := by
  have hcon : constructAutoTraderConfig addTraderConfigKwargs = .error "default_coins" := by
    rfl
  have hadd : addTraderFromDb registered row =
      (if registered.contains row.id then .ok registered else .error "default_coins") := by
    unfold addTraderFromDb
    rw [hcon]
  unfold loadTraderRow
  by_cases h1 : (registered.contains row.id) = true
  · rw [if_pos h1]
  · rw [if_neg h1]
    by_cases h2 : (!row.enabled) = true
    · rw [if_pos h2]
    · rw [if_neg h2]
      cases hm : models.find? (fun m => m.id == row.ai_model_id) with
      | none => simp only [hm]
      | some m =>
          simp only [hm]
          by_cases h3 : (!m.enabled) = true
          · rw [if_pos h3]
          · rw [if_neg h3]
            cases he : exchanges.find? (fun e => e.id == row.exchange_id) with
            | none => simp only [he]
            | some e =>
                simp only [he]
                by_cases h4 : (!e.enabled) = true
                · rw [if_pos h4]
                · rw [if_neg h4]
                  rw [hadd, if_neg h1]

/-- C2 (code bug): `AutoTraderConfig(...)` in `_add_trader_from_db` passes five
keyword arguments the dataclass does not declare, so construction raises
TypeError for every trader row; the caller catches the exception and skips, and
`load_user_traders` therefore never registers any trader. -/
theorem C2_load_registers_no_trader :
    unexpectedKwargs addTraderConfigKwargs autoTraderConfigFields =
      ["default_coins", "trading_coins", "system_prompt_template",
       "custom_prompt", "override_base_prompt"] ∧
    constructAutoTraderConfig addTraderConfigKwargs = .error "default_coins" ∧
    (∀ models exchanges registered rows,
        loadUserTraders models exchanges registered rows = registered) := by
  refine ⟨by rfl, by rfl, ?_⟩
  intro models exchanges registered rows
  induction rows generalizing registered with
  | nil => rfl
  | cons row rest ih =>
      unfold loadUserTraders at ih ⊢
      rw [List.foldl_cons, loadTraderRow_registers_nothing]
      exact ih registered

/-- C3 (code bug): `build_trading_context` requests the attribute
`get_performance_analysis`, which `DecisionLogger` does not define (its analyzer
is `analyze_performance`); the AttributeError is caught and performance is always
None, so the user prompt never carries the Sharpe line, whatever the log holds. -/
theorem C3_sharpe_never_in_prompt :
    lookupLoggerMethod performanceMethodRequested = none ∧
    (∀ analysis : PerformanceAnalysis,
        buildContextPerformance analysis = none ∧
        userPromptSharpeLine (buildContextPerformance analysis) = none) := by
  exact ⟨rfl, fun analysis => ⟨rfl, rfl⟩⟩

/-- Fewer than two equities leave no periodic return. -/
theorem periodicReturns_short (l : List ℚ) (h : l.length < 2) : periodicReturns l = [] := by
  match l, h with
  | [], _ => rfl
  | [_], _ => rfl

/-- The filtered equity list is no longer than the record list. -/
theorem extractEquities_length_le (records : List CycleRecord) :
    (extractEquities records).length ≤ records.length := by
  calc (extractEquities records).length
      ≤ (records.map (fun r => r.account_total_balance)).length :=
        List.length_filter_le _ _
    _ = records.length := List.length_map records _

/-- The population variance is nonnegative. -/
theorem populationVariance_nonneg (l : List ℚ) : 0 ≤ populationVariance l := by
  unfold populationVariance
  apply div_nonneg
  · apply List.sum_nonneg
    intro x hx
    obtain ⟨r, _, hr⟩ := List.mem_map.mp hx
    rw [← hr]
    positivity
  · positivity

/-- The square root of the population variance vanishes exactly when the variance
does; this identifies the source's `std_dev == 0` test with the variance test used
in the Lean model of `_calculate_sharpe_ratio`. -/
theorem sqrt_variance_eq_zero_iff (l : List ℚ) :
    Real.sqrt ((populationVariance l : ℚ) : ℝ) = 0 ↔ populationVariance l = 0 := by
  rw [Real.sqrt_eq_zero (by exact_mod_cast populationVariance_nonneg l)]
  exact_mod_cast Iff.rfl

/-- `_calculate_sharpe_ratio` factors through the returns list. -/
theorem calculateSharpeRatio_eq (records : List CycleRecord) :
    calculateSharpeRatio records =
      sharpeOfReturns (periodicReturns (extractEquities records)) := by
  unfold calculateSharpeRatio sharpeOfReturns
  by_cases h1 : records.length < 2
  · rw [if_pos h1]
    have hlen : (extractEquities records).length < 2 :=
      lt_of_le_of_lt (extractEquities_length_le records) h1
    rw [periodicReturns_short _ hlen]
    simp
  · rw [if_neg h1]
    by_cases h2 : (extractEquities records).length < 2
    · rw [if_pos h2]
      rw [periodicReturns_short _ h2]
      simp
    · rw [if_neg h2]

/-- Mean, population variance and hence the Sharpe tail are invariant under any
permutation of the returns. -/
theorem sharpeOfReturns_perm (l1 l2 : List ℚ) (h : List.Perm l1 l2) :
    sharpeOfReturns l1 = sharpeOfReturns l2 := by
  have hlen := h.length_eq
  have hsum := h.sum_eq
  have hmean : meanOf l1 = meanOf l2 := by
    unfold meanOf
    rw [hsum, hlen]
  have hvar : populationVariance l1 = populationVariance l2 := by
    unfold populationVariance
    rw [hmean, (h.map (fun r => (r - meanOf l2) ^ 2)).sum_eq, hlen]
  unfold sharpeOfReturns
  rw [hlen, hvar, hmean]

/-- C7 (corrected): the Sharpe ratio over the records' positive equities equals
mean/population-stdev of the periodic returns with the ±999 saturation on zero
variance, and is invariant under any permutation of the returns — but only once
at least 2 returns (3 positive equities) exist: with fewer than 2 returns
(in particular with exactly 2 positive equities, where the claim demands ±999)
the code returns 0. -/
theorem C7_sharpe_ratio (records : List CycleRecord) :
    ((extractEquities records).length < 2 → calculateSharpeRatio records = 0) ∧
    ((periodicReturns (extractEquities records)).length < 2 →
        calculateSharpeRatio records = 0) ∧
    (∀ records2 : List CycleRecord,
        List.Perm (periodicReturns (extractEquities records))
          (periodicReturns (extractEquities records2)) →
        calculateSharpeRatio records = calculateSharpeRatio records2) ∧
    (2 ≤ (periodicReturns (extractEquities records)).length →
      (populationVariance (periodicReturns (extractEquities records)) = 0 →
          0 < meanOf (periodicReturns (extractEquities records)) →
          calculateSharpeRatio records = 999) ∧
      (populationVariance (periodicReturns (extractEquities records)) = 0 →
          meanOf (periodicReturns (extractEquities records)) < 0 →
          calculateSharpeRatio records = -999) ∧
      (populationVariance (periodicReturns (extractEquities records)) ≠ 0 →
          calculateSharpeRatio records =
            (meanOf (periodicReturns (extractEquities records)) : ℝ) /
              Real.sqrt ((populationVariance (periodicReturns (extractEquities records)) : ℚ) : ℝ))) := by
  refine ⟨?_, ?_, ?_, ?_⟩
  · intro h2
    rw [calculateSharpeRatio_eq, periodicReturns_short _ h2]
    rfl
  · intro h2
    rw [calculateSharpeRatio_eq]
    unfold sharpeOfReturns
    by_cases h0 : (periodicReturns (extractEquities records)).length = 0
    · rw [if_pos h0]
    · rw [if_neg h0, if_pos (by omega)]
  · intro records2 hperm
    rw [calculateSharpeRatio_eq, calculateSharpeRatio_eq]
    exact sharpeOfReturns_perm _ _ hperm
  · intro h2
    have h0 : ¬ ((periodicReturns (extractEquities records)).length = 0) := by omega
    have h1 : ¬ ((periodicReturns (extractEquities records)).length = 1) := by omega
    refine ⟨?_, ?_, ?_⟩
    · intro hvar hmean
      rw [calculateSharpeRatio_eq]
      unfold sharpeOfReturns
      rw [if_neg h0, if_neg h1, if_pos hvar, if_pos hmean]
    · intro hvar hmean
      rw [calculateSharpeRatio_eq]
      unfold sharpeOfReturns
      rw [if_neg h0, if_neg h1, if_pos hvar, if_neg (by linarith), if_pos hmean]
    · intro hvar
      rw [calculateSharpeRatio_eq]
      unfold sharpeOfReturns
      rw [if_neg h0, if_neg h1, if_neg hvar]

/-- C7 counterexample: two positive equities 1000, 2000 give the single return
sequence [1], whose population stdev is 0 with positive mean; the claim demands
+999, the code returns 0. -/
theorem C7_counterexample :
    extractEquities [⟨1000⟩, ⟨2000⟩] = [1000, 2000] ∧
    periodicReturns (extractEquities [⟨1000⟩, ⟨2000⟩]) = [1] ∧
    populationVariance (periodicReturns (extractEquities [⟨1000⟩, ⟨2000⟩])) = 0 ∧
    0 < meanOf (periodicReturns (extractEquities [⟨1000⟩, ⟨2000⟩])) ∧
    calculateSharpeRatio [⟨1000⟩, ⟨2000⟩] = 0 ∧
    (0 : ℝ) ≠ 999 := by
  have heq : extractEquities [⟨1000⟩, ⟨2000⟩] = [1000, 2000] := by
    norm_num [extractEquities]
  have hret : periodicReturns (extractEquities [⟨1000⟩, ⟨2000⟩]) = [1] := by
    rw [heq]
    norm_num [periodicReturns]
  refine ⟨heq, hret, ?_, ?_, ?_, by norm_num⟩
  · rw [hret]
    norm_num [populationVariance, meanOf]
  · rw [hret]
    norm_num [meanOf]
  · rw [calculateSharpeRatio_eq, hret]
    rfl

/-- Witness for C7: three equities 1000, 2000, 4000 give returns [1, 1] (zero
variance, positive mean), and the theorem yields the +999 saturation. -/
theorem C7_witness : calculateSharpeRatio [⟨1000⟩, ⟨2000⟩, ⟨4000⟩] = 999 := by
  have heq : extractEquities [⟨1000⟩, ⟨2000⟩, ⟨4000⟩] = [1000, 2000, 4000] := by
    norm_num [extractEquities]
  have hret : periodicReturns (extractEquities [⟨1000⟩, ⟨2000⟩, ⟨4000⟩]) = [1, 1] := by
    rw [heq]
    norm_num [periodicReturns]
  refine ((C7_sharpe_ratio [⟨1000⟩, ⟨2000⟩, ⟨4000⟩]).2.2.2 ?_).1 ?_ ?_
  · rw [hret]
    norm_num
  · rw [hret]
    norm_num [populationVariance, meanOf]
  · rw [hret]
    norm_num [meanOf]

/-- Every entry of the market-data map comes from a successfully fetched snapshot
that survived the liquidity filter. -/
theorem fetchMarketDataMap_mem (positionSymbols : List String)
    (fetched : List (String × Option MarketData)) (s : String) (d : MarketData)
    (h : (s, d) ∈ fetchMarketDataMap positionSymbols fetched) :
    (s, some d) ∈ fetched ∧ droppedByLiquidityFilter positionSymbols s d = false := by
  induction fetched with
  | nil => cases h
  | cons hd tl ih =>
      rcases hd with ⟨s2, od⟩
      cases od with
      | none =>
          have h2 : (s, d) ∈ fetchMarketDataMap positionSymbols tl := h
          obtain ⟨hmem, hdrop⟩ := ih h2
          exact ⟨List.mem_cons_of_mem _ hmem, hdrop⟩
      | some data =>
          by_cases hdrop : droppedByLiquidityFilter positionSymbols s2 data = true
          · have h2 : (s, d) ∈ fetchMarketDataMap positionSymbols tl := by
              unfold fetchMarketDataMap at h
              rw [if_pos hdrop] at h
              exact h
            obtain ⟨hmem, hd2⟩ := ih h2
            exact ⟨List.mem_cons_of_mem _ hmem, hd2⟩
          · have h2 : (s, d) ∈ (s2, data) :: fetchMarketDataMap positionSymbols tl := by
              unfold fetchMarketDataMap at h
              rw [if_neg hdrop] at h
              exact h
            rcases List.mem_cons.mp h2 with heq | hmem
            · rw [Prod.mk.injEq] at heq
              obtain ⟨hs, hdd⟩ := heq
              subst hs
              subst hdd
              exact ⟨List.mem_cons_self _ _, Bool.not_eq_true _ ▸ (by simpa using hdrop)⟩
            · obtain ⟨hmem2, hd2⟩ := ih hmem
              exact ⟨List.mem_cons_of_mem _ hmem2, hd2⟩

/-- With pairwise-distinct fetch keys (the fetch loop runs over a set of symbols),
a key determines its fetch outcome. -/
theorem nodup_key_value_unique (fetched : List (String × Option MarketData))
    (hnd : (fetched.map Prod.fst).Nodup) (s : String) (x y : Option MarketData)
    (hx : (s, x) ∈ fetched) (hy : (s, y) ∈ fetched) : x = y := by
  induction fetched with
  | nil => cases hx
  | cons hd tl ih =>
      rw [List.map_cons, List.nodup_cons] at hnd
      rcases List.mem_cons.mp hx with hx1 | hx1
      · rcases List.mem_cons.mp hy with hy1 | hy1
        · have hxy : (s, x) = (s, y) := hx1.trans hy1.symm
          rw [Prod.mk.injEq] at hxy
          exact hxy.2
        · exfalso
          apply hnd.1
          rw [← hx1]
          exact List.mem_map.mpr ⟨(s, y), hy1, rfl⟩
      · rcases List.mem_cons.mp hy with hy1 | hy1
        · exfalso
          apply hnd.1
          rw [← hy1]
          exact List.mem_map.mpr ⟨(s, x), hx1, rfl⟩
        · exact ih hnd.2 hx1 hy1

/-- A snapshot of a symbol the trader holds is never dropped by the filter. -/
theorem dropped_false_of_position (positionSymbols : List String) (s : String)
    (data : MarketData) (h : s ∈ positionSymbols) :
    droppedByLiquidityFilter positionSymbols s data = false := by
  have hc : positionSymbols.contains s = true := List.elem_eq_true_of_mem h
  cases hoi : data.open_interest with
  | none => simp [droppedByLiquidityFilter, hoi]
  | some oi =>
      unfold droppedByLiquidityFilter
      rw [hoi, hc]
      rfl

/-- A fetched snapshot that is not dropped lands in the market-data map. -/
theorem fetchMarketDataMap_keeps (positionSymbols : List String)
    (fetched : List (String × Option MarketData)) (s : String) (data : MarketData)
    (hmem : (s, some data) ∈ fetched)
    (hdrop : droppedByLiquidityFilter positionSymbols s data = false) :
    (s, data) ∈ fetchMarketDataMap positionSymbols fetched := by
  induction fetched with
  | nil => cases hmem
  | cons hd tl ih =>
      rcases hd with ⟨s2, od⟩
      rcases List.mem_cons.mp hmem with heq | hm
      · rw [Prod.mk.injEq] at heq
        obtain ⟨hs, hod⟩ := heq
        subst hs
        subst hod
        unfold fetchMarketDataMap
        rw [if_neg (by rw [hdrop]; simp)]
        exact List.mem_cons_self _ _
      · cases od with
        | none =>
            show (s, data) ∈ fetchMarketDataMap positionSymbols tl
            exact ih hm
        | some data2 =>
            by_cases hd2 : droppedByLiquidityFilter positionSymbols s2 data2 = true
            · unfold fetchMarketDataMap
              rw [if_pos hd2]
              exact ih hm
            · unfold fetchMarketDataMap
              rw [if_neg hd2]
              exact List.mem_cons_of_mem _ (ih hm)

/-- C9 (confirmed): in `_fetch_market_data_for_context`, a fetched non-position
symbol with open-interest data, positive price and OI value below 15,000,000 USD
is absent from the market-data map, while a fetched position symbol is always
present, regardless of its open interest. -/
theorem C9_liquidity_filter (positionSymbols : List String)
    (fetched : List (String × Option MarketData)) :
    (∀ s data oi, (fetched.map Prod.fst).Nodup →
        (s, some data) ∈ fetched →
        ¬ s ∈ positionSymbols →
        data.open_interest = some oi →
        0 < data.current_price →
        oi.latest * data.current_price < 15000000 →
        ∀ d, ¬ (s, d) ∈ fetchMarketDataMap positionSymbols fetched) ∧
    (∀ s data, (s, some data) ∈ fetched → s ∈ positionSymbols →
        (s, data) ∈ fetchMarketDataMap positionSymbols fetched) := by
  constructor
  · intro s data oi hnd hmem hnpos hoi hpr hlow d hin
    obtain ⟨hmem2, hdropfalse⟩ := fetchMarketDataMap_mem positionSymbols fetched s d hin
    have hsame : some data = some d :=
      nodup_key_value_unique fetched hnd s (some data) (some d) hmem hmem2
    have hdd : data = d := by
      injection hsame
    have hcontains : positionSymbols.contains s = false := by
      simpa using hnpos
    have hdiv : oi.latest * data.current_price / 1000000 < 15 := by
      rw [div_lt_iff₀ (by norm_num : (0:ℚ) < 1000000)]
      linarith
    have hdroptrue : droppedByLiquidityFilter positionSymbols s data = true := by
      unfold droppedByLiquidityFilter
      rw [hoi]
      show (!positionSymbols.contains s && decide (0 < data.current_price) &&
        decide (oi.latest * data.current_price / 1000000 < 15)) = true
      rw [hcontains, decide_eq_true hpr, decide_eq_true hdiv]
      rfl
    rw [hdd] at hdroptrue
    rw [hdroptrue] at hdropfalse
    exact Bool.noConfusion hdropfalse
  · intro s data hmem hpos
    exact fetchMarketDataMap_keeps positionSymbols fetched s data hmem
      (dropped_false_of_position positionSymbols s data hpos)

/-- Witness for C9: scenario 1 — `XYZUSDT` is both a position and a low-OI symbol
and stays in the map; `ABCUSDT` has the same low OI, is no position, and is
dropped. -/
theorem C9_witness :
    ("XYZUSDT", lowOIData) ∈ fetchMarketDataMap ["XYZUSDT"]
      [("XYZUSDT", some lowOIData), ("ABCUSDT", some lowOIData)] ∧
    ∀ d, ¬ ("ABCUSDT", d) ∈ fetchMarketDataMap ["XYZUSDT"]
      [("XYZUSDT", some lowOIData), ("ABCUSDT", some lowOIData)] := by
  have h := C9_liquidity_filter ["XYZUSDT"]
    [("XYZUSDT", some lowOIData), ("ABCUSDT", some lowOIData)]
  constructor
  · exact h.2 "XYZUSDT" lowOIData (by simp) (by simp)
  · exact h.1 "ABCUSDT" lowOIData { latest := 5000, average := 5000 }
      (by simp) (by simp) (by simp) rfl
      (by norm_num [lowOIData]) (by norm_num [lowOIData])

/-- C10 (corrected): `set_leverage` skips `futures_change_leverage` exactly when
the positions snapshot reports a position on the symbol already at the target
leverage.  Two consecutive calls read the same ≤15 s-cached snapshot (the 5 s
post-change sleep keeps it valid), so the second call is silent exactly when the
first was itself a no-op; whenever the first call actually issued a change — no
position on the symbol, or a position at a different leverage — the second call
re-issues the request. -/
theorem C10_set_leverage_idempotence (positions : List VenuePosition)
    (symbol : String) (n : Int) :
    (currentLeverage positions symbol = n → 0 < n →
        setLeverageIssuesChange positions symbol n = false) ∧
    (secondCallIssuesChange positions symbol n = false ↔
        (currentLeverage positions symbol = n ∧ 0 < currentLeverage positions symbol)) ∧
    ((∀ p ∈ positions, p.symbol ≠ symbol) →
        secondCallIssuesChange positions symbol n = true) := by
  refine ⟨?_, ?_, ?_⟩
  · intro hcur hn
    simp [setLeverageIssuesChange, hcur, hn]
  · unfold secondCallIssuesChange setLeverageIssuesChange
    simp
  · intro hnone
    have hcur : currentLeverage positions symbol = 0 := by
      unfold currentLeverage
      rw [List.find?_eq_none.mpr (fun x hx => by simpa using hnone x hx)]
    simp [secondCallIssuesChange, setLeverageIssuesChange, hcur]

/-- C10 counterexample: with no open position on the symbol, the first call and
the second consecutive call both issue the change request; and with an ETHUSDT
position cached at leverage 5, the second consecutive `set_leverage(ETHUSDT, 7)`
re-issues the request as well (the cached snapshot still reports 5).  The claim
says the second call issues no network request. -/
theorem C10_counterexample :
    setLeverageIssuesChange [] "BTCUSDT" 5 = true ∧
    secondCallIssuesChange [] "BTCUSDT" 5 = true ∧
    secondCallIssuesChange [ethLongPosition] "ETHUSDT" 7 = true := by
  exact ⟨rfl, rfl, rfl⟩

/-- Witness for C10: a cached ETHUSDT position already at leverage 7 makes
`set_leverage(ETHUSDT, 7)` a no-op. -/
theorem C10_witness :
    setLeverageIssuesChange [{ ethLongPosition with leverage := 7 }] "ETHUSDT" 7 = false := by
  exact (C10_set_leverage_idempotence
    [{ ethLongPosition with leverage := 7 }] "ETHUSDT" 7).1 (by rfl) (by norm_num)

/-- Witness for C4: on the concrete list [hold, open, close] the sorted order puts
the close (index 0) before the open (index 1). -/
theorem C4_witness : (0 : Nat) < 1 := by
  have h := (C4_sort_stable_partition
    [btcHoldDecision, ethOpenLongDecision, ethCloseLongDecision]).2.2.2.2.1
  exact h 0 1 (by decide) (by decide) (by decide) (by decide)

end Nofx
